import Mathlib

/-!
Verification of the Kachiguda waitlist manager (`src/app.py`).

A shallow embedding of the waitlist/settings core of `app.py` (a Flask app
over SQLite) and proofs about its behaviour.

Modelling conventions:
* The `waitlist` table is a `List Entry`; the `settings` table is a
  `List (String × Option String)` (the `value` column is nullable, hence
  `Option String`).  SQLite's `key TEXT PRIMARY KEY` makes settings keys
  unique in any reachable store, but the operations are modelled on
  arbitrary lists exactly as the SQL statements act (an `UPDATE`/`INSERT
  .. ON CONFLICT` touches every matching row).
* Timestamps are abstract UTC time points modelled as `Nat`.  The code
  stores them as `"YYYY-MM-DD HH:MM:SS"` strings produced by
  `utc_now_str()` and orders by `datetime(requesttime)`; that fixed-width
  format is order-isomorphic to the underlying time point, so `Nat` with
  its usual order models both the value and `datetime(...)` parsing.
* `ORDER BY datetime(requesttime) ASC` is modelled with
  `List.insertionSort` on the `requesttime` key (any sort realises the SQL
  ordering contract); `LIMIT 100` is `List.take 100`.
* HTTP plumbing (flash messages, redirects, templates) carries no store
  state and is omitted; each handler is the function from store state (and
  request data) to store state, or to the row sequence it renders.
-/

/-- The `status` column.  The schema declares it `TEXT NOT NULL DEFAULT
'WAITING'`; the code only ever writes `'WAITING'`, `'ASSIGNING'`,
`'SEATED'`. -/
inductive Status where
  | WAITING
  | ASSIGNING
  | SEATED
deriving DecidableEq, Repr

/-- One row of the `waitlist` table (schema at `app.py:49-57` plus the
lifecycle columns added by `_ensure_lifecycle_columns`,
`app.py:89-100`). -/
structure Entry where
  id : Nat
  name : String
  phone : String
  seats : Int
  notes : String
  status : Status
  requesttime : Nat
  requested_at : Option Nat
  assigned_at : Option Nat
  seated_at : Option Nat
  deleted_at : Option Nat
deriving DecidableEq, Repr

/-- The persistent store: the `waitlist` table and the `settings` table. -/
structure Db where
  waitlist : List Entry
  settings : List (String × Option String)
deriving DecidableEq, Repr

/-- The query `SELECT value FROM settings WHERE key=?` followed by `.fetchone()`:
the first row whose key matches, if any (`some (value)` where the value
itself is `none` for SQL NULL). -/
def settingsRow (db : Db) (key : String) : Option (Option String) :=
  (db.settings.find? (fun kv => kv.1 == key)).map Prod.snd

/-- Embedding of `get_setting` (`app.py:109-111`):
`row["value"] if row and row["value"] is not None else default`. -/
def get_setting (db : Db) (key : String) (default : String) : String :=
  match settingsRow db key with
  | some (some v) => v
  | _ => default

/-- Embedding of `set_setting` (`app.py:113-120`): `INSERT INTO settings(key,value)
VALUES(?,?) ON CONFLICT(key) DO UPDATE SET value=excluded.value` —
overwrite the value of every row with this key if one exists, otherwise
append a fresh row. -/
def set_setting (db : Db) (key value : String) : Db :=
  { db with settings :=
      if db.settings.any (fun kv => kv.1 == key) then
        db.settings.map (fun kv => if kv.1 == key then (key, some value) else kv)
      else
        db.settings ++ [(key, some value)] }

/-- Python's `str.strip()` with no argument: remove leading and trailing
whitespace.  (Python strips the Unicode whitespace class; on the ASCII
inputs considered here it agrees with `Char.isWhitespace`.) -/
def strip (s : String) : String :=
  String.mk
    (((s.data.dropWhile Char.isWhitespace).reverse.dropWhile
        Char.isWhitespace).reverse)

/-- Embedding of `normalize_phone` (`app.py:145-146`): keep exactly the characters that
are decimal digits or `'+'`.  (Python's `str.isdigit` also accepts
non-ASCII digits; on the ASCII inputs considered here it agrees with
`Char.isDigit`.) -/
def normalize_phone (p : String) : String :=
  String.mk (p.data.filter (fun ch => ch.isDigit || ch == '+'))

/-- Embedding of `add_waitlist_submit` (`app.py:190-213`).  `seatsParsed` is the result
of Python's `try: seats = int(seats) except: seats = 0` — `some n` when
`int()` succeeds with value `n`, `none` when it raises (the code then uses
`0`).  `now` is `utc_now_str()` and `nextId` the AUTOINCREMENT id.  On
validation failure the handler only flashes and redirects: the store is
unchanged. -/
def add_waitlist_submit (db : Db) (now nextId : Nat)
    (name phone notes : String) (seatsParsed : Option Int) : Db :=
  let name := strip name
  let phone := normalize_phone phone
  let notes := strip notes
  let seats := seatsParsed.getD 0
  if name = "" || phone = "" || seats ≤ 0 then
    db
  else
    { db with waitlist := db.waitlist ++
        [{ id := nextId, name := name, phone := phone, seats := seats,
           notes := notes, status := .WAITING, requesttime := now,
           requested_at := some now, assigned_at := none,
           seated_at := none, deleted_at := none }] }

/-- Embedding of `waitlist_assign` (`app.py:232-244`): `UPDATE waitlist SET
status='ASSIGNING', assigned_at = ? WHERE id=? AND deleted_at IS NULL`. -/
def waitlist_assign (db : Db) (now item_id : Nat) : Db :=
  { db with waitlist := db.waitlist.map (fun e =>
      if e.id = item_id ∧ e.deleted_at = none then
        { e with status := .ASSIGNING, assigned_at := some now }
      else e) }

/-- Embedding of `waitlist_seated` (`app.py:246-258`): `UPDATE waitlist SET
status='SEATED', seated_at = COALESCE(seated_at, ?) WHERE id=? AND
deleted_at IS NULL`. -/
def waitlist_seated (db : Db) (now item_id : Nat) : Db :=
  { db with waitlist := db.waitlist.map (fun e =>
      if e.id = item_id ∧ e.deleted_at = none then
        { e with status := .SEATED,
                 seated_at := match e.seated_at with
                              | some t => some t
                              | none => some now }
      else e) }

/-- Embedding of `waitlist_delete` (`app.py:260-272`): `UPDATE waitlist SET deleted_at
= ? WHERE id=? AND deleted_at IS NULL`. -/
def waitlist_delete (db : Db) (now item_id : Nat) : Db :=
  { db with waitlist := db.waitlist.map (fun e =>
      if e.id = item_id ∧ e.deleted_at = none then
        { e with deleted_at := some now }
      else e) }

/-- The `WHERE status IN ('WAITING','ASSIGNING') AND deleted_at IS NULL`
filter shared by `home` and `api_waitlist`. -/
def activeFilter (e : Entry) : Bool :=
  (e.status == .WAITING || e.status == .ASSIGNING) && e.deleted_at == none

/-- Ordering key of `ORDER BY datetime(requesttime) ASC`. -/
def requestLe (a b : Entry) : Prop :=
  a.requesttime ≤ b.requesttime

instance : DecidableRel requestLe :=
  fun a b => Nat.decLe a.requesttime b.requesttime

/-- The row sequence of `api_waitlist` (`app.py:313-329`): active rows,
ordered by `requesttime`, `LIMIT 100`.  (The handler then projects and
enriches each row for JSON; the entries it serialises are these.) -/
def api_waitlist_rows (db : Db) : List Entry :=
  ((db.waitlist.filter activeFilter).insertionSort requestLe).take 100

/-- The row sequence rendered by `home` (`app.py:172-184`): the same query
as `api_waitlist` when `display_mode` is `"waitlist"`, otherwise no rows
at all. -/
def home_rows (db : Db) : List Entry :=
  if get_setting db "display_mode" "open" = "waitlist" then
    api_waitlist_rows db
  else
    []

/-- The row sequence of the admin page `waitlist_admin` (`app.py:216-224`):
all non-deleted rows ordered by `requesttime` (no status filter, no
limit). -/
def waitlist_admin_rows (db : Db) : List Entry :=
  (db.waitlist.filter (fun e => e.deleted_at == none)).insertionSort requestLe

/-- The per-session state: Flask's `session` dict restricted to the one
key the app uses.  `session["is_admin"] = True` stores `some true`;
`session.pop("is_admin", None)` yields `none`. -/
structure Session where
  is_admin : Option Bool
deriving DecidableEq, Repr

/-- Embedding of `is_admin` (`app.py:123-124`): `bool(session.get("is_admin"))`. -/
def is_admin (sess : Session) : Bool :=
  sess.is_admin.getD false

/-- The condition of `admin_login_post` (`app.py:298-299`): `row and
check_password_hash(row["value"], pin)`.  `check_password_hash` is
werkzeug's salted-hash comparison, external to this repository; it is
modelled as an abstract boolean-valued function `checkHash` taking the
stored hash and the submitted PIN.  A row whose value is SQL NULL makes
`check_password_hash` fail (it cannot match `None`), so only a present,
non-NULL hash can succeed. -/
def login_check (checkHash : String → String → Bool) (db : Db)
    (pin : String) : Bool :=
  match settingsRow db "admin_pin_hash" with
  | some (some v) => checkHash v (strip pin)
  | _ => false

/-- Embedding of `admin_login_post` (`app.py:294-304`), session effect only: the pin is
stripped, compared against the stored hash; on match `session["is_admin"]
= True`, on mismatch only a flash message is emitted and the session is
untouched. -/
def admin_login_post (checkHash : String → String → Bool) (db : Db)
    (sess : Session) (pin : String) : Session :=
  if login_check checkHash db pin then
    { sess with is_admin := some true }
  else
    sess

/-- Embedding of `admin_logout` (`app.py:306-310`): `session.pop("is_admin", None)`. -/
def admin_logout (_sess : Session) : Session :=
  { is_admin := none }

/-! Helper lemmas shared by the theorems below. -/

theorem find?_eq_lookup (key : String) (l : List (String × Option String)) :
    (l.find? (fun kv => kv.1 == key)).map Prod.snd = List.lookup key l := by
  induction l with
  | nil => rfl
  | cons hd tl ih =>
    by_cases h : hd.1 = key
    · obtain ⟨k1, v1⟩ := hd
      simp only at h
      subst h
      simp [List.find?, List.lookup]
    · obtain ⟨k1, v1⟩ := hd
      simp only at h
      have h1 : (k1 == key) = false := by simp [h]
      have h2 : (key == k1) = false := by simp [Ne.symm h]
      simp [List.find?, List.lookup, h1, h2, ih]

theorem upsert_find (k v : String) (l : List (String × Option String)) :
    ((if l.any (fun kv => kv.1 == k) then
        l.map (fun kv => if kv.1 == k then (k, some v) else kv)
      else l ++ [(k, some v)]).find? (fun kv => kv.1 == k)) = some (k, some v) := by
  induction l with
  | nil => simp
  | cons hd tl ih =>
    obtain ⟨k1, v1⟩ := hd
    by_cases h : k1 = k
    · subst h
      simp [List.find?]
    · cases ha : tl.any (fun kv => kv.1 == k) with
      | true =>
        simpa [List.find?, h, ha] using (by simpa [ha] using ih)
      | false =>
        simpa [List.find?, h, ha] using (by simpa [ha] using ih)

/-- Row at index `i` after `waitlist_seated`, when the row matches the
WHERE clause of the UPDATE. -/
theorem seated_getElem (db : Db) (now tid i : Nat) (e : Entry)
    (hi : db.waitlist[i]? = some e) (hid : e.id = tid) (hd : e.deleted_at = none) :
    (waitlist_seated db now tid).waitlist[i]? =
      some { e with status := .SEATED, seated_at := some (e.seated_at.getD now) } := by
  unfold waitlist_seated
  rw [List.getElem?_map, hi, Option.map_some', if_pos ⟨hid, hd⟩]
  cases hse : e.seated_at <;> simp [hse]

instance : IsTotal Entry requestLe :=
  ⟨fun a b => Nat.le_total a.requesttime b.requesttime⟩

instance : IsTrans Entry requestLe :=
  ⟨fun _ _ _ hab hbc => Nat.le_trans hab hbc⟩

/-- A deleted row is produced by none of the three list queries. -/
theorem deleted_not_in_views (db : Db) (e : Entry) (hdel : e.deleted_at ≠ none) :
    e ∉ home_rows db ∧ e ∉ api_waitlist_rows db ∧ e ∉ waitlist_admin_rows db := by
  have hapi : e ∉ api_waitlist_rows db := by
    intro hmem
    have h1 : e ∈ (db.waitlist.filter activeFilter).insertionSort requestLe :=
      List.mem_of_mem_take hmem
    have h2 : e ∈ db.waitlist.filter activeFilter :=
      (List.mem_insertionSort requestLe).mp h1
    have h3 := (List.mem_filter.mp h2).2
    simp [activeFilter] at h3
    exact hdel h3.2
  refine ⟨?_, hapi, ?_⟩
  · intro hmem
    unfold home_rows at hmem
    split at hmem
    · exact hapi hmem
    · simp at hmem
  · intro hmem
    have h2 : e ∈ db.waitlist.filter (fun e => e.deleted_at == none) :=
      (List.mem_insertionSort requestLe).mp hmem
    have h3 := (List.mem_filter.mp h2).2
    simp at h3
    exact hdel h3

/-! ## Transition sequences (for the lifecycle claims) -/

/-- One admin transition request against the store: the two handlers a
"sequence of assign/seat operations" is built from. -/
inductive TransitionOp where
  | assign (now item_id : Nat)
  | seat (now item_id : Nat)
deriving DecidableEq, Repr

/-- Dispatch one transition request to its handler. -/
def applyTransition (db : Db) : TransitionOp → Db
  | .assign now tid => waitlist_assign db now tid
  | .seat now tid => waitlist_seated db now tid

/-- Run a sequence of transition requests in order. -/
def applyTransitions (db : Db) (ops : List TransitionOp) : Db :=
  ops.foldl applyTransition db

/-- A concrete store used in counterexamples and witnesses: one WAITING,
non-deleted entry with id 7. -/
def exWaiting : Entry :=
  { id := 7, name := "Alice", phone := "5551234", seats := 2, notes := "",
    status := .WAITING, requesttime := 1, requested_at := some 1,
    assigned_at := none, seated_at := none, deleted_at := none }

/-- C1 counterexample: starting from a WAITING entry, `assign; seat`
reaches SEATED, and one more `assign` moves the very same entry back to
ASSIGNING — the transition relation is not one-directional. -/
theorem assign_reverts_seated :
    (applyTransitions ⟨[exWaiting], []⟩
        [.assign 2 7, .seat 3 7]).waitlist.map Entry.status = [.SEATED] ∧
    (applyTransitions ⟨[exWaiting], []⟩
        [.assign 2 7, .seat 3 7, .assign 4 7]).waitlist.map Entry.status
      = [.ASSIGNING] := by
  decide

/-- C1 (amended): the assign and seat handlers never write status WAITING,
so no sequence of assign/seat operations moves an entry that has left
WAITING (e.g. a SEATED one) back to WAITING; the id of the row is
preserved throughout.  (SEATED back to ASSIGNING is reachable, see the
counterexample.) -/
theorem transitions_never_return_to_waiting (db : Db) (ops : List TransitionOp)
    (i : Nat) (e : Entry) (hi : db.waitlist[i]? = some e)
    (hs : e.status ≠ .WAITING) :
    ∃ e2, (applyTransitions db ops).waitlist[i]? = some e2 ∧
      e2.id = e.id ∧ e2.status ≠ .WAITING := by
  induction ops generalizing db e with
  | nil => exact ⟨e, hi, rfl, hs⟩
  | cons op ops ih =>
    have step : ∃ e1, (applyTransition db op).waitlist[i]? = some e1 ∧
        e1.id = e.id ∧ e1.status ≠ .WAITING := by
      cases op with
      | assign now tid =>
        unfold applyTransition waitlist_assign
        rw [List.getElem?_map, hi, Option.map_some']
        by_cases h : e.id = tid ∧ e.deleted_at = none
        · rw [if_pos h]
          exact ⟨_, rfl, rfl, by simp⟩
        · rw [if_neg h]
          exact ⟨e, rfl, rfl, hs⟩
      | seat now tid =>
        unfold applyTransition waitlist_seated
        rw [List.getElem?_map, hi, Option.map_some']
        by_cases h : e.id = tid ∧ e.deleted_at = none
        · rw [if_pos h]
          exact ⟨_, rfl, rfl, by simp⟩
        · rw [if_neg h]
          exact ⟨e, rfl, rfl, hs⟩
    obtain ⟨e1, h1, hid1, hs1⟩ := step
    obtain ⟨e2, h2, hid2, hs2⟩ := ih _ _ h1 hs1
    exact ⟨e2, by simpa [applyTransitions, List.foldl_cons] using h2,
           hid2.trans hid1, hs2⟩

/-- Witness for the amended C1 theorem at a concrete store. -/
theorem transitions_never_return_to_waiting_witness :
    ∃ e2, (applyTransitions ⟨[{ exWaiting with status := .SEATED }], []⟩
        [.assign 2 7, .seat 3 7]).waitlist[0]? = some e2 ∧
      e2.id = ({ exWaiting with status := .SEATED } : Entry).id ∧
      e2.status ≠ .WAITING :=
  transitions_never_return_to_waiting ⟨[{ exWaiting with status := .SEATED }], []⟩
    [.assign 2 7, .seat 3 7] 0 { exWaiting with status := .SEATED }
    (by decide) (by decide)

/-- C3: once `waitlist_delete` has been applied to an id, the row with
that id has `deleted_at` set, and from then on — in any later store state
that still holds this row — an assign, seat, or delete on that id leaves
the row (every field, including the original `deleted_at`) unchanged, and
the row appears in none of the rendered lists (public home view, JSON
panel, admin all-entries view). -/
theorem softDelete_terminal (db : Db) (n0 did i : Nat) (e : Entry)
    (hi : (waitlist_delete db n0 did).waitlist[i]? = some e) (hid : e.id = did) :
    e.deleted_at ≠ none ∧
    ∀ db2 : Db, ∀ j now : Nat, db2.waitlist[j]? = some e →
      (waitlist_assign db2 now did).waitlist[j]? = some e ∧
      (waitlist_seated db2 now did).waitlist[j]? = some e ∧
      (waitlist_delete db2 now did).waitlist[j]? = some e ∧
      e ∉ home_rows db2 ∧ e ∉ api_waitlist_rows db2 ∧ e ∉ waitlist_admin_rows db2 := by
  have hdel : e.deleted_at ≠ none := by
    unfold waitlist_delete at hi
    rw [List.getElem?_map] at hi
    cases h0 : db.waitlist[i]? with
    | none => rw [h0] at hi; exact absurd hi (by simp)
    | some e0 =>
      rw [h0, Option.map_some'] at hi
      by_cases hc : e0.id = did ∧ e0.deleted_at = none
      · rw [if_pos hc] at hi
        obtain rfl : ({ e0 with deleted_at := some n0 } : Entry) = e :=
          Option.some.inj hi
        simp
      · rw [if_neg hc] at hi
        obtain rfl : e0 = e := Option.some.inj hi
        intro hnone
        exact hc ⟨hid, hnone⟩
  refine ⟨hdel, fun db2 j now hj => ?_⟩
  have hskip : ¬ (e.id = did ∧ e.deleted_at = none) := fun hc => hdel hc.2
  obtain ⟨hhome, hapi, hadmin⟩ := deleted_not_in_views db2 e hdel
  refine ⟨?_, ?_, ?_, hhome, hapi, hadmin⟩
  · unfold waitlist_assign
    rw [List.getElem?_map, hj, Option.map_some', if_neg hskip]
  · unfold waitlist_seated
    rw [List.getElem?_map, hj, Option.map_some', if_neg hskip]
  · unfold waitlist_delete
    rw [List.getElem?_map, hj, Option.map_some', if_neg hskip]

/-- A concrete deleted entry, used in witnesses. -/
def exDeleted : Entry := { exWaiting with deleted_at := some 5 }

/-- Witness for C3 at a concrete store: delete id 7, then assign, seat
and delete are no-ops and the row is in no view. -/
theorem softDelete_terminal_witness :
    exDeleted.deleted_at ≠ none ∧
    (waitlist_assign ⟨[exDeleted], []⟩ 6 7).waitlist[0]? = some exDeleted ∧
    (waitlist_seated ⟨[exDeleted], []⟩ 6 7).waitlist[0]? = some exDeleted ∧
    (waitlist_delete ⟨[exDeleted], []⟩ 6 7).waitlist[0]? = some exDeleted ∧
    exDeleted ∉ home_rows ⟨[exDeleted], []⟩ ∧
    exDeleted ∉ api_waitlist_rows ⟨[exDeleted], []⟩ ∧
    exDeleted ∉ waitlist_admin_rows ⟨[exDeleted], []⟩ := by
  have h := softDelete_terminal ⟨[exWaiting], []⟩ 5 7 0 exDeleted
    (by decide) (by decide)
  exact ⟨h.1, h.2 ⟨[exDeleted], []⟩ 0 6 (by decide)⟩

/-- C4: seating is idempotent on `seated_at`.  For a non-deleted row whose
id is targeted, the first seat call sets `seated_at` to the current time
only if it is currently null (otherwise it keeps its value), and a second
seat call — at any later time — leaves `seated_at` exactly as the first
call left it. -/
theorem seat_idempotent (db : Db) (n1 n2 tid i : Nat) (e : Entry)
    (hi : db.waitlist[i]? = some e) (hid : e.id = tid) (hd : e.deleted_at = none) :
    ∃ e1, (waitlist_seated db n1 tid).waitlist[i]? = some e1 ∧
      e1.seated_at = some (e.seated_at.getD n1) ∧
      ∃ e2, (waitlist_seated (waitlist_seated db n1 tid) n2 tid).waitlist[i]?
              = some e2 ∧
        e2.seated_at = e1.seated_at := by
  have h1 := seated_getElem db n1 tid i e hi hid hd
  refine ⟨_, h1, rfl, _, seated_getElem _ n2 tid i _ h1 hid hd, rfl⟩

/-- Witness for C4: a first seat at time 3 stamps `seated_at = 3`; a
second seat at time 9 keeps it. -/
theorem seat_idempotent_witness :
    ∃ e1, (waitlist_seated ⟨[exWaiting], []⟩ 3 7).waitlist[0]? = some e1 ∧
      e1.seated_at = some (exWaiting.seated_at.getD 3) ∧
      ∃ e2, (waitlist_seated (waitlist_seated ⟨[exWaiting], []⟩ 3 7) 9 7).waitlist[0]?
              = some e2 ∧
        e2.seated_at = e1.seated_at :=
  seat_idempotent ⟨[exWaiting], []⟩ 3 9 7 0 exWaiting (by decide) (by decide) (by decide)

/-- C2: `add_waitlist_submit` inserts a row if and only if the stripped
name is non-empty, the phone is non-empty after normalization, and the
seats field parses (Python `int()`) to an integer greater than zero.  On
failure the whole store is unchanged; on success exactly one row is
appended, with status WAITING and `requested_at` equal to `requesttime`,
both the creation time `now`. -/
theorem createEntry_spec (db : Db) (now nextId : Nat)
    (name phone notes : String) (seatsParsed : Option Int) :
    (¬ (strip name ≠ "" ∧ normalize_phone phone ≠ "" ∧
          ∃ n, seatsParsed = some n ∧ 0 < n) →
        add_waitlist_submit db now nextId name phone notes seatsParsed = db) ∧
    ((strip name ≠ "" ∧ normalize_phone phone ≠ "" ∧
          ∃ n, seatsParsed = some n ∧ 0 < n) →
        ∃ e, (add_waitlist_submit db now nextId name phone notes seatsParsed).waitlist
               = db.waitlist ++ [e] ∧
             (add_waitlist_submit db now nextId name phone notes seatsParsed).settings
               = db.settings ∧
             e.status = .WAITING ∧ e.requesttime = now ∧
             e.requested_at = some e.requesttime) := by
  have hgetD : (∃ n, seatsParsed = some n ∧ 0 < n) ↔ 0 < seatsParsed.getD 0 := by
    cases seatsParsed with
    | none => simp
    | some n => simp
  constructor
  · intro hnv
    simp only [add_waitlist_submit]
    split
    · rfl
    · rename_i hcond
      exfalso
      apply hcond
      simp only [Bool.or_eq_true, decide_eq_true_eq]
      by_contra hc
      push_neg at hc
      exact hnv ⟨hc.1.1, hc.1.2, hgetD.mpr hc.2⟩
  · intro hv
    obtain ⟨hA, hB, hC⟩ := hv
    simp only [add_waitlist_submit]
    split
    · rename_i hcond
      exfalso
      simp only [Bool.or_eq_true, decide_eq_true_eq] at hcond
      rcases hcond with (h | h) | h
      · exact hA h
      · exact hB h
      · exact absurd (hgetD.mp hC) (not_lt.mpr h)
    · exact ⟨_, rfl, rfl, rfl, rfl, rfl⟩

/-- Witness for C2: a valid submission appends the expected row; the same
theorem also discharges a failing submission (empty name) leaving the
store untouched. -/
theorem createEntry_spec_witness :
    (add_waitlist_submit ⟨[], []⟩ 1 7 "" "555" "" (some 2) = ⟨[], []⟩) ∧
    ∃ e, (add_waitlist_submit ⟨[], []⟩ 1 7 "Alice" "555-1234" "" (some 2)).waitlist
           = ([] : List Entry) ++ [e] ∧
         (add_waitlist_submit ⟨[], []⟩ 1 7 "Alice" "555-1234" "" (some 2)).settings
           = [] ∧
         e.status = .WAITING ∧ e.requesttime = 1 ∧
         e.requested_at = some e.requesttime :=
  ⟨(createEntry_spec ⟨[], []⟩ 1 7 "" "555" "" (some 2)).1
      (by intro h; exact h.1 (by decide)),
   (createEntry_spec ⟨[], []⟩ 1 7 "Alice" "555-1234" "" (some 2)).2
      ⟨by decide, by decide, 2, rfl, by decide⟩⟩

/-- Modelled from the spec: "normalized string containing only digits and
an optional leading `+`" — at most one `+`, and only at the front. -/
def phoneShapeOk (s : String) : Bool :=
  match s.data with
  | '+' :: rest => rest.all Char.isDigit
  | l => l.all Char.isDigit

/-- C5 counterexample: creating an entry with raw phone `"1+2"` stores
`"1+2"` — the claimed shape (digits with an optional leading `+`) does
not hold for the stored value, because `normalize_phone` keeps every
`+`, wherever it occurs. -/
theorem phone_shape_counterexample :
    (add_waitlist_submit ⟨[], []⟩ 1 7 "Alice" "1+2" "" (some 2)).waitlist.map
        Entry.phone = ["1+2"] ∧
    phoneShapeOk "1+2" = false := by
  decide

/-- C5 (amended): the stored phone value produced at creation is the raw
input with every character that is not a decimal digit or `+` removed;
consequently every character of the stored value is a digit or a `+`
(but a `+` may occur anywhere and more than once). -/
theorem phone_stored_normalized (db : Db) (now nextId : Nat)
    (name phone notes : String) (seatsParsed : Option Int) (e : Entry)
    (h : (add_waitlist_submit db now nextId name phone notes seatsParsed).waitlist
          = db.waitlist ++ [e]) :
    e.phone.data = phone.data.filter (fun ch => ch.isDigit || ch == '+') ∧
    ∀ c ∈ e.phone.data, c.isDigit ∨ c = '+' := by
  have he : e.phone = normalize_phone phone := by
    simp only [add_waitlist_submit] at h
    split at h
    · exact absurd h (by simp)
    · have h2 : ([{ id := nextId, name := strip name, phone := normalize_phone phone,
                    seats := seatsParsed.getD 0, notes := strip notes, status := .WAITING,
                    requesttime := now, requested_at := some now, assigned_at := none,
                    seated_at := none, deleted_at := none }] : List Entry) = [e] :=
        List.append_cancel_left h
      have h3 := (List.cons.injEq _ _ _ _).mp h2
      rw [← h3.1]
  constructor
  · rw [he]
    rfl
  · intro c hc
    rw [he] at hc
    have : c ∈ phone.data.filter (fun ch => ch.isDigit || ch == '+') := hc
    have h4 := (List.mem_filter.mp this).2
    simpa [Bool.or_eq_true] using h4

/-- Witness for the amended C5: phone `"1+2"` is stored filtered, and all
its characters are digits or `+`. -/
theorem phone_stored_normalized_witness :
    (("1+2" : String)).data
        = ("1+2" : String).data.filter (fun ch => ch.isDigit || ch == '+') ∧
    ∀ c ∈ (("1+2" : String)).data, c.isDigit ∨ c = '+' := by
  have h := phone_stored_normalized ⟨[], []⟩ 1 7 "Alice" "1+2" "" (some 2)
    { id := 7, name := "Alice", phone := "1+2", seats := 2, notes := "",
      status := .WAITING, requesttime := 1, requested_at := some 1,
      assigned_at := none, seated_at := none, deleted_at := none }
    (by decide)
  exact h

/-- C6 counterexample: with stored value the empty string, `get_setting`
returns that empty string, not the supplied default — contrary to the
claim that an empty stored value falls back to the default. -/
theorem get_setting_empty_not_default :
    get_setting ⟨[], [("k", some "")]⟩ "k" "d" = "" ∧
    get_setting ⟨[], [("k", some "")]⟩ "k" "d" ≠ "d" := by
  decide

/-- C6 (amended): `get_setting` returns the stored value whenever the key
is present with a non-NULL value (even the empty string), and returns the
supplied default exactly when the key is absent or the stored value is
SQL NULL.  Stated against the standard association-list lookup. -/
theorem get_setting_lookup_spec (db : Db) (key d : String) :
    get_setting db key d = ((List.lookup key db.settings).join).getD d := by
  unfold get_setting settingsRow
  rw [← find?_eq_lookup key db.settings]
  cases h : db.settings.find? (fun kv => kv.1 == key) with
  | none => rfl
  | some kv =>
    obtain ⟨k1, v1⟩ := kv
    cases v1 <;> rfl

/-- C8: a `set_setting` followed by `get_setting` on the same key returns
the value just written, never the default — whether the key was
previously absent (insert) or present (overwrite), and for any prior
store contents. -/
theorem set_then_get (db : Db) (k v d : String) :
    get_setting (set_setting db k v) k d = v := by
  unfold get_setting settingsRow set_setting
  rw [upsert_find]
  rfl

/-- C7: both active list queries (the JSON panel and the public home
view) only ever return rows with `deleted_at` unset and status WAITING or
ASSIGNING, and the returned sequence is ordered ascending by
`requesttime`. -/
theorem listActive_spec (db : Db) :
    (∀ e ∈ api_waitlist_rows db, e.deleted_at = none ∧
        (e.status = .WAITING ∨ e.status = .ASSIGNING)) ∧
    (api_waitlist_rows db).Sorted requestLe ∧
    (∀ e ∈ home_rows db, e.deleted_at = none ∧
        (e.status = .WAITING ∨ e.status = .ASSIGNING)) ∧
    (home_rows db).Sorted requestLe := by
  have hmem : ∀ e ∈ api_waitlist_rows db, e.deleted_at = none ∧
      (e.status = .WAITING ∨ e.status = .ASSIGNING) := by
    intro e he
    have h1 : e ∈ (db.waitlist.filter activeFilter).insertionSort requestLe :=
      List.mem_of_mem_take he
    have h2 := (List.mem_filter.mp ((List.mem_insertionSort requestLe).mp h1)).2
    simp only [activeFilter, Bool.and_eq_true, Bool.or_eq_true, beq_iff_eq] at h2
    exact ⟨h2.2, h2.1⟩
  have hsort : (api_waitlist_rows db).Sorted requestLe :=
    List.Pairwise.sublist (List.take_sublist _ _)
      (List.sorted_insertionSort requestLe (db.waitlist.filter activeFilter))
  refine ⟨hmem, hsort, ?_, ?_⟩
  · intro e he
    unfold home_rows at he
    split at he
    · exact hmem e he
    · exact absurd he (by simp)
  · unfold home_rows
    split
    · exact hsort
    · exact List.sorted_nil

/-- Witness for C7 at a one-entry store with the display switched to the
waitlist view. -/
theorem listActive_spec_witness :
    exWaiting.deleted_at = none ∧
    (exWaiting.status = .WAITING ∨ exWaiting.status = .ASSIGNING) :=
  (listActive_spec ⟨[exWaiting], [("display_mode", some "waitlist")]⟩).1
    exWaiting (by decide)

/-- C9: both active-list views are capped at 100 rows by `LIMIT 100`:
their length never exceeds 100; when more than 100 active entries exist
the JSON panel returns exactly 100 of them — strictly fewer than exist —
and the home view (when the display shows the waitlist) renders exactly
the same capped sequence. -/
theorem active_views_capped (db : Db) :
    (api_waitlist_rows db).length ≤ 100 ∧ (home_rows db).length ≤ 100 ∧
    (100 < (db.waitlist.filter activeFilter).length →
        (api_waitlist_rows db).length = 100 ∧
        (api_waitlist_rows db).length < (db.waitlist.filter activeFilter).length) ∧
    (get_setting db "display_mode" "open" = "waitlist" →
        home_rows db = api_waitlist_rows db) := by
  have hlen : (api_waitlist_rows db).length =
      min 100 (db.waitlist.filter activeFilter).length := by
    unfold api_waitlist_rows
    rw [List.length_take, List.length_insertionSort]
  refine ⟨?_, ?_, ?_, ?_⟩
  · rw [hlen]
    exact Nat.min_le_left _ _
  · unfold home_rows
    split
    · rw [hlen]
      exact Nat.min_le_left _ _
    · simp
  · intro h
    constructor
    · rw [hlen]
      exact Nat.min_eq_left (Nat.le_of_lt h)
    · rw [hlen, Nat.min_eq_left (Nat.le_of_lt h)]
      exact h
  · intro h
    unfold home_rows
    rw [if_pos h]

/-- A store with 101 active entries and the display showing the
waitlist, exercising the 100-row cap. -/
def dbBig : Db :=
  ⟨(List.range 101).map (fun i =>
      { id := i, name := "G", phone := "5", seats := 2, notes := "",
        status := .WAITING, requesttime := i, requested_at := some i,
        assigned_at := none, seated_at := none, deleted_at := none }),
   [("display_mode", some "waitlist")]⟩

/-- Witness for C9: with 101 active entries the JSON panel returns
exactly 100 rows, and the home view renders the same sequence. -/
theorem active_views_capped_witness :
    (api_waitlist_rows dbBig).length = 100 ∧
    home_rows dbBig = api_waitlist_rows dbBig :=
  ⟨((active_views_capped dbBig).2.2.1 (by decide)).1,
   (active_views_capped dbBig).2.2.2 (by decide)⟩

/-- C10: a failed login attempt (stored hash missing, NULL, or PIN
mismatch) leaves the session exactly as it was — in particular an admin
who submits a wrong PIN keeps the capability — a successful or failed
login never clears the flag, and only `admin_logout` removes it. -/
theorem failed_login_preserves_admin (checkHash : String → String → Bool)
    (db : Db) (sess : Session) (pin : String) :
    (login_check checkHash db pin = false →
        admin_login_post checkHash db sess pin = sess) ∧
    (is_admin sess = true →
        is_admin (admin_login_post checkHash db sess pin) = true) ∧
    is_admin (admin_logout sess) = false := by
  refine ⟨?_, ?_, rfl⟩
  · intro h
    unfold admin_login_post
    rw [h]
    simp
  · intro h
    unfold admin_login_post
    split
    · rfl
    · exact h

/-- Witness for C10: with no stored hash every PIN fails, and an
admin session survives the failed attempt untouched. -/
theorem failed_login_preserves_admin_witness :
    admin_login_post (fun _ _ => false) ⟨[], []⟩ ⟨some true⟩ "0000" = ⟨some true⟩ ∧
    is_admin (admin_login_post (fun _ _ => false) ⟨[], []⟩ ⟨some true⟩ "0000") = true :=
  ⟨(failed_login_preserves_admin (fun _ _ => false) ⟨[], []⟩ ⟨some true⟩ "0000").1 rfl,
   (failed_login_preserves_admin (fun _ _ => false) ⟨[], []⟩ ⟨some true⟩ "0000").2.1 rfl⟩
